import Mathlib

/-!
Verification of the PDB2PQR driver module (`pdb2pqr/main.py`).

The module under study orchestrates the PDB2PQR pipeline: repairability
checking (`is_repairable`), option sanity checking (`check_options`), and the
main pipeline driver (`non_trivial`).  The pipeline stages themselves
(repair, debumping, hydrogen optimization, force-field application, the
external PROPKA calculator) live in collaborator modules; here they are
modelled by their observable interface: the events they contribute to the
run and the data they return (an `Env` record supplies the collaborator
outputs).  Numeric quantities (charges, pH, the repair limit) are modelled
as exact rationals.

Each Python function is embedded as a Lean function of the same name.
Exceptions are modelled with `Except`; the trace of executed pipeline
stages is returned alongside the result so that ordering claims can be
stated.
-/

/-- Exceptions that the driver can raise, tagged with a short message key.
`valueError`, `notImplementedError` and `runtimeError` correspond to the
Python exception classes raised in `main.py`; `calcError` stands for an
arbitrary exception escaping the external titration calculator. -/
inductive PdbExn where
  | valueError (tag : String)
  | notImplementedError (tag : String)
  | runtimeError (tag : String)
  | calcError (tag : String)
deriving DecidableEq

/-- Titration-state methods selectable via `--titration-state-method`. -/
inductive PkaMethod where
  | propka
  | pdb2pka
deriving DecidableEq

/-- The slice of the argparse namespace that the embedded functions read.
`ff` is `none` when no force field was given (Python `args.ff is None`). -/
structure Args where
  assign_only : Bool
  debump : Bool
  opt : Bool
  pka_method : Option PkaMethod
  ffout : Option String
  ff : Option String
  ph : ℚ
  neutraln : Bool
  neutralc : Bool

/-- An atom record: its name and its record type (the string `"ATOM"` or
`"HETATM"`, as tested by `pdb_atom.type` in the ligand loop). -/
structure Atom where
  name : String
  type : String
deriving DecidableEq

/-- A residue: identity fields used in error messages, its atom list, and
its total charge as read by the residue-charge invariant check (the value
of `residue.charge` after force-field/ligand assignment). -/
structure Residue where
  name : String
  res_seq : Nat
  atoms : List Atom
  charge : ℚ
deriving DecidableEq

/-- The protein (biomolecule) summary state read by `is_repairable` and the
residue list traversed by the ligand loop and the charge check. -/
structure Protein where
  num_heavy : Nat
  num_missing_heavy : Nat
  residues : List Residue
deriving DecidableEq

/-- Conditions logged by `is_repairable` (warning, info and error logs). -/
inductive Report where
  | no_heavy_with_ligand
  | biomolecule_clean
  | too_many_missing
deriving DecidableEq

/-- Logging severity of each `Report` as used in `is_repairable`. -/
inductive LogLevel where
  | info
  | warning
  | error
deriving DecidableEq

/-- Severity with which `is_repairable` logs each condition. -/
def report_level : Report → LogLevel
  | Report.no_heavy_with_ligand => LogLevel.warning
  | Report.biomolecule_clean => LogLevel.info
  | Report.too_many_missing => LogLevel.error

/-- Observable pipeline steps of `non_trivial`, in the order the Python code
performs them.  `report r` records a condition logged by `is_repairable`;
the remaining constructors name the collaborator calls made by the driver. -/
inductive Event where
  | report (r : Report)
  | set_hip
  | repair
  | ss_update
  | debump
  | remove_hydrogens
  | run_propka
  | apply_pka
  | add_hydrogens
  | init_full_opt
  | init_wat_opt
  | optimize
  | cleanup
  | set_states
  | apply_force_field
  | process_ligand
  | charge_check
  | apply_name_scheme
  | make_header
deriving DecidableEq

/-- Ligand parameter table: the MOL2 per-atom-name map to (charge, radius),
as in `ligand.atoms[pdb_atom.name]`. -/
abbrev LigTable := List (String × ℚ × ℚ)

/-- Dictionary lookup in the ligand atom table (Python `ligand.atoms[name]`,
raising `KeyError` modelled as `none`). -/
def lig_lookup (t : LigTable) (n : String) : Option (ℚ × ℚ) :=
  (t.find? (fun e => e.1 == n)).map (fun e => e.2)

/-- Collaborator outputs consumed by `non_trivial`: the outcome of the
external PROPKA calculation (`run_propka`), and the hit/miss lists returned
by `protein.apply_force_field`. -/
structure Env where
  propka : Except PdbExn (List (String × ℚ))
  hitlist : List Atom
  misslist : List Atom

/-- Message keys for the exceptions raised in the embedded functions. -/
def noHeavyTag : String := "no-biomolecule-heavy-atoms-and-no-ligand"

/-- Message key of the `NotImplementedError` for the PDB2PKA method. -/
def pdb2pkaTag : String := "PDB2PKA-not-implemented"

/-- Message key of the non-integer residue charge `ValueError`. -/
def chargeTag : String := "residue-charge-is-non-integer"

/-- Message key of the pH-range `RuntimeError` (whose Python text cites the
range [1, 14] even though the test accepts 0 and 14). -/
def phTag : String := "ph-outside-range-1-14"

/-- Message key of the `--neutraln` `RuntimeError`. -/
def neutralnTag : String := "neutraln-requires-parse"

/-- Message key of the `--neutralc` `RuntimeError`. -/
def neutralcTag : String := "neutralc-requires-parse"

/-- Round-off error when determining if charge is integral
(`CHARGE_ERROR = 1e-3` in `main.py`). -/
def CHARGE_ERROR : ℚ := 1/1000

/-- Default relative tolerance of Python `math.isclose` (`rel_tol=1e-9`),
in effect in the charge check since only `abs_tol` is overridden. -/
def REL_TOL : ℚ := 1/1000000000

/-- Python `math.isclose(a, b, rel_tol, abs_tol)`:
`abs(a-b) <= max(rel_tol * max(abs(a), abs(b)), abs_tol)`. -/
def isclose (a b rel_tol abs_tol : ℚ) : Bool :=
  decide (|a - b| ≤ max (rel_tol * max |a| |b|) abs_tol)

/-- Python `int()` applied to a rational: truncation toward zero. -/
def py_int (q : ℚ) : ℤ :=
  if 0 ≤ q then ⌊q⌋ else ⌈q⌉

/-- The per-residue test of the invariant check:
`isclose(residue.charge, int(residue.charge), abs_tol=CHARGE_ERROR)`. -/
def residue_charge_ok (r : Residue) : Bool :=
  isclose r.charge ((py_int r.charge : ℤ) : ℚ) REL_TOL CHARGE_ERROR

/-- The residue-charge invariant check loop of `non_trivial` (lines
505-511): raise `ValueError` at the first residue whose charge is not
close to its Python-`int` truncation. -/
def charge_check (residues : List Residue) : Except PdbExn Unit :=
  match residues.find? (fun r => ! residue_charge_ok r) with
  | some _ => Except.error (PdbExn.valueError chargeTag)
  | none => Except.ok ()

/-- The inner atom loop of the ligand-processing block (lines 485-501) for
one residue: scan atoms in order, stopping at the first record of type
`"ATOM"` (the `break`); atoms found in the MOL2 table are appended to
`lig_atoms` (first component), atoms absent from it to `missing_atoms`
(second component). -/
def ligand_residue_scan (t : LigTable) : List Atom → List Atom × List Atom
  | [] => ([], [])
  | a :: rest =>
    if a.type == "ATOM" then ([], [])
    else
      let p := ligand_residue_scan t rest
      match lig_lookup t a.name with
      | some _ => (a :: p.1, p.2)
      | none => (p.1, a :: p.2)

/-- The outer residue loop of the ligand-processing block: concatenation of
the per-residue scans, in residue order. -/
def ligand_scan (t : LigTable) (residues : List Residue) : List Atom × List Atom :=
  ((residues.map (fun r => (ligand_residue_scan t r.atoms).1)).flatten,
   (residues.map (fun r => (ligand_residue_scan t r.atoms).2)).flatten)

/-- The `lig_atoms` list accumulated by `non_trivial` (empty when no ligand
was supplied). -/
def lig_matched (ligand : Option LigTable) (p : Protein) : List Atom :=
  match ligand with
  | some t => (ligand_scan t p.residues).1
  | none => []

/-- The `missing_atoms` list accumulated by `non_trivial` (empty when no
ligand was supplied): only unmatched ligand atoms are ever appended to it. -/
def lig_missing (ligand : Option LigTable) (p : Protein) : List Atom :=
  match ligand with
  | some t => (ligand_scan t p.residues).2
  | none => []

/-- What `non_trivial` hands back on success: the atoms serialized into PQR
lines (`matched_atoms = hitlist + lig_atoms` passed to
`io.print_protein_atoms`) and the `missing_atoms` list passed both to the
header printer and to the caller as `missed_residues`. -/
structure RunResult where
  lines : List Atom
  missing_atoms : List Atom
deriving DecidableEq

/-- Embedding of `is_repairable(protein, has_ligand)` (lines 292-331),
together with the list of conditions it logs.  `limit` is the configured
`REPAIR_LIMIT` constant (imported from `pdb2pqr.config`, so kept here as a
parameter).  Branches, in source order: no heavy atoms (raise `ValueError`
unless a ligand is present); nothing missing (clean); missing fraction
above the repair limit (logged, repair declined); otherwise repairable. -/
def is_repairable (limit : ℚ) (p : Protein) (has_ligand : Bool) :
    Except PdbExn (Bool × List Report) :=
  if p.num_heavy = 0 then
    if !has_ligand then Except.error (PdbExn.valueError noHeavyTag)
    else Except.ok (false, [Report.no_heavy_with_ligand])
  else if p.num_missing_heavy = 0 then Except.ok (false, [Report.biomolecule_clean])
  else if (p.num_missing_heavy : ℚ) / (p.num_heavy : ℚ) > limit then
    Except.ok (false, [Report.too_many_missing])
  else Except.ok (true, [])

/-- Embedding of `check_options(args)` (lines 178-194): `RuntimeError` when
the pH is outside [0, 14], or when `--neutraln`/`--neutralc` is used with a
force field other than PARSE. -/
def check_options (args : Args) : Except PdbExn Unit :=
  if args.ph < 0 ∨ args.ph > 14 then Except.error (PdbExn.runtimeError phTag)
  else if args.neutraln &&
      (match args.ff with | none => true | some f => f.toLower != "parse") then
    Except.error (PdbExn.runtimeError neutralnTag)
  else if args.neutralc &&
      (match args.ff with | none => true | some f => f.toLower != "parse") then
    Except.error (PdbExn.runtimeError neutralcTag)
  else Except.ok ()

/-- Events contributed by the tail of `non_trivial` shared by the
assign-only and full paths (lines 473-536): `set_states`,
`apply_force_field`, the ligand block (when a ligand is present), the
residue-charge check, then - only if the check passes - the optional
naming-scheme application and the header/line regeneration. -/
def fin_events (args : Args) (p : Protein) (ligand : Option LigTable) : List Event :=
  [Event.set_states, Event.apply_force_field]
    ++ (match ligand with | some _ => [Event.process_ligand] | none => [])
    ++ [Event.charge_check]
    ++ (match charge_check p.residues with
        | Except.error _ => []
        | Except.ok _ =>
          (match args.ffout with
           | some _ => [Event.apply_name_scheme]
           | none => []) ++ [Event.make_header])

/-- The tail of `non_trivial` (lines 473-536), appended after the events
`tr0` of the earlier stages: it fails exactly when the residue-charge check
fails, and otherwise returns the matched atoms (`hitlist + lig_atoms`) and
the ligand `missing_atoms` list. -/
def finish_stage (args : Args) (p : Protein) (ligand : Option LigTable) (env : Env)
    (tr0 : List Event) : List Event × Except PdbExn RunResult :=
  (tr0 ++ fin_events args p ligand,
   match charge_check p.residues with
   | Except.error e => Except.error e
   | Except.ok _ =>
     Except.ok ⟨env.hitlist ++ lig_matched ligand p, lig_missing ligand p⟩)

/-- Events of the hydrogen block (lines 454-471): hydrogen addition, the
second debump (when debumping is enabled), and hydrogen optimization (full
initialization when `--noopt` was not given, water-only otherwise). -/
def hydro_events (args : Args) : List Event :=
  [Event.add_hydrogens]
    ++ (if args.debump then [Event.debump] else [])
    ++ (if args.opt then [Event.init_full_opt] else [Event.init_wat_opt])
    ++ [Event.optimize, Event.cleanup]

/-- Embedding of `non_trivial(args, protein, ligand, definition, is_cif)`
(lines 404-536).  `limit` is the configured `REPAIR_LIMIT`; `ligand` is the
parsed MOL2 table (present exactly when `args.ligand` was given, as
arranged by `main`); `env` carries the collaborator outputs.  Returns the
trace of stage events together with either the raised exception or the
run's results. -/
def non_trivial (limit : ℚ) (args : Args) (p : Protein) (ligand : Option LigTable)
    (env : Env) : List Event × Except PdbExn RunResult :=
  if args.assign_only then
    finish_stage args p ligand env [Event.set_hip]
  else
    match is_repairable limit p ligand.isSome with
    | Except.error e => ([], Except.error e)
    | Except.ok pr =>
      let tr := pr.2.map Event.report
        ++ (if pr.1 then [Event.repair] else [])
        ++ [Event.ss_update]
        ++ (if args.debump then [Event.debump] else [])
      match args.pka_method with
      | some PkaMethod.pdb2pka =>
        (tr, Except.error (PdbExn.notImplementedError pdb2pkaTag))
      | some PkaMethod.propka =>
        match env.propka with
        | Except.error e =>
          (tr ++ [Event.remove_hydrogens, Event.run_propka], Except.error e)
        | Except.ok _ =>
          finish_stage args p ligand env
            (tr ++ [Event.remove_hydrogens, Event.run_propka, Event.apply_pka]
              ++ hydro_events args)
      | none => finish_stage args p ligand env (tr ++ hydro_events args)

/-- Stage filter used to state the debump-ordering claim: heavy-atom repair,
disulfide update, debumping and hydrogen addition. -/
def c5Keep : Event → Bool
  | Event.repair => true
  | Event.ss_update => true
  | Event.debump => true
  | Event.add_hydrogens => true
  | _ => false

/-- Stage filter used to state the pipeline-ordering claim: the stages named
by the specification's control-flow sentence. -/
def c6Keep : Event → Bool
  | Event.repair => true
  | Event.ss_update => true
  | Event.debump => true
  | Event.apply_pka => true
  | Event.add_hydrogens => true
  | Event.optimize => true
  | Event.apply_force_field => true
  | Event.charge_check => true
  | _ => false

/-! ### Concrete inputs used by witnesses and counterexamples -/

/-- Arguments of a plain full-pipeline run: no `--assign-only`, debumping and
optimization on, no titration method, no output naming scheme. -/
def fullArgs : Args := ⟨false, true, true, none, none, none, 7, false, false⟩

/-- Arguments of an `--assign-only` run. -/
def assignArgs : Args := ⟨true, false, false, none, none, none, 7, false, false⟩

/-- Arguments of an `--assign-only` run that also selects the PDB2PKA
titration method. -/
def assignPdb2pkaArgs : Args :=
  ⟨true, false, false, some PkaMethod.pdb2pka, none, none, 7, false, false⟩

/-- Arguments of a full run that selects the PROPKA titration method. -/
def propkaArgs : Args :=
  ⟨false, true, true, some PkaMethod.propka, none, none, 7, false, false⟩

/-- Environment whose collaborators return empty data and succeed. -/
def emptyEnv : Env := ⟨Except.ok [], [], []⟩

/-- A protein with one heavy atom, nothing missing, and no residue records
(so the charge check is vacuous). -/
def cleanProt : Protein := ⟨1, 0, []⟩

/-- A residue whose assigned charge 10^7 + 1/500 is huge and deviates from
the nearest integer by 1/500, more than `CHARGE_ERROR`. -/
def bigRes : Residue := ⟨"LIG", 1, [], 10^7 + 1/500⟩

/-- Protein holding only `bigRes`. -/
def bigProt : Protein := ⟨1, 0, [bigRes]⟩

/-- A residue whose assigned charge 1/2 deviates from the nearest integer by
1/2, more than `CHARGE_ERROR`. -/
def halfRes : Residue := ⟨"GLU", 2, [], 1/2⟩

/-- Protein holding only `halfRes`. -/
def halfProt : Protein := ⟨1, 0, [halfRes]⟩

/-- An atom mapped by the force field in the counterexample run. -/
def caAtom : Atom := ⟨"CA", "ATOM"⟩

/-- An atom the force-field lookup fails to map in the counterexample run. -/
def cbAtom : Atom := ⟨"CB", "ATOM"⟩

/-- A residue containing both atoms, with integral charge. -/
def alaRes : Residue := ⟨"ALA", 1, [caAtom, cbAtom], 0⟩

/-- Protein holding `alaRes`. -/
def miss1Prot : Protein := ⟨2, 0, [alaRes]⟩

/-- Environment in which the force-field lookup matched `caAtom` and missed
`cbAtom`. -/
def miss1Env : Env := ⟨Except.ok [], [caAtom], [cbAtom]⟩

/-- Ligand parameter table holding a single atom name `O1`. -/
def ligTab : LigTable := [("O1", 0, 0)]

/-- A heteroatom of the structure whose name is absent from `ligTab`. -/
def hetAtom : Atom := ⟨"XX", "HETATM"⟩

/-- A heteroatom-only residue holding `hetAtom`, with integral charge. -/
def hetRes : Residue := ⟨"LIG", 1, [hetAtom], 0⟩

/-- Protein holding `hetRes`. -/
def hetProt : Protein := ⟨1, 0, [hetRes]⟩

/-- Message key of the simulated titration-calculator failure. -/
def calcFailTag : String := "propka-calculation-failed"

/-- Environment in which the external titration calculator raises. -/
def failEnv : Env := ⟨Except.error (PdbExn.calcError calcFailTag), [], []⟩

/-- A protein missing 5 of 10 heavy atoms. -/
def missManyProt : Protein := ⟨10, 5, []⟩

/-- A protein missing 2 of 10 heavy atoms. -/
def missFewProt : Protein := ⟨10, 2, []⟩

/-- A protein with no heavy atoms at all. -/
def zeroProt : Protein := ⟨0, 0, []⟩

/-- Arguments violating the neutraln/force-field compatibility test (the
`--neutraln` flag with no PARSE force field) while the pH is well inside
range. -/
def neutralnArgs : Args :=
  ⟨false, true, true, none, none, none, 7, true, false⟩

/-- Arguments of a full (non-assign-only) run that selects the PDB2PKA
titration method. -/
def fullPdb2pkaArgs : Args :=
  ⟨false, true, true, some PkaMethod.pdb2pka, none, none, 7, false, false⟩

/-- In-range-boundary arguments: pH exactly 0. -/
def phZeroArgs : Args := ⟨false, true, true, none, none, none, 0, false, false⟩

/-- In-range-boundary arguments: pH exactly 14. -/
def phFourteenArgs : Args := ⟨false, true, true, none, none, none, 14, false, false⟩

/-! ### Helper lemmas about the charge check -/

theorem py_int_abs_le (q : ℚ) : |((py_int q : ℤ) : ℚ)| ≤ |q| := by
  unfold py_int
  by_cases h : 0 ≤ q
  · rw [if_pos h, abs_of_nonneg h, abs_of_nonneg]
    · exact Int.floor_le q
    · exact_mod_cast Int.floor_nonneg.mpr h
  · push_neg at h
    rw [if_neg (not_le.mpr h), abs_of_neg h, abs_of_nonpos]
    · rw [neg_le_neg_iff]
      exact Int.le_ceil q
    · have hc : ⌈q⌉ ≤ (0 : ℤ) := Int.ceil_le.mpr (by exact_mod_cast h.le)
      exact_mod_cast hc

theorem round_closest (q : ℚ) :
    |q - ((round q : ℤ) : ℚ)| ≤ |q - ((py_int q : ℤ) : ℚ)| :=
  round_le q (py_int q)

theorem charge_ok_iff_bound (r : Residue) (h : |r.charge| ≤ 10^6) :
    residue_charge_ok r = true ↔
      |r.charge - ((py_int r.charge : ℤ) : ℚ)| ≤ CHARGE_ERROR := by
  unfold residue_charge_ok isclose
  rw [decide_eq_true_eq, max_eq_left (py_int_abs_le r.charge), max_eq_right]
  have h0 := abs_nonneg r.charge
  unfold REL_TOL CHARGE_ERROR
  norm_num at h ⊢
  linarith

theorem residue_charge_ok_intCast (r : Residue) (m : ℤ) (h : r.charge = (m : ℚ)) :
    residue_charge_ok r = true := by
  have hpy : py_int r.charge = m := by
    unfold py_int
    rw [h]
    split
    · exact Int.floor_intCast m
    · exact Int.ceil_intCast m
  unfold residue_charge_ok isclose
  rw [decide_eq_true_eq, hpy, h, sub_self, abs_zero]
  refine le_trans ?_ (le_max_right _ _)
  unfold CHARGE_ERROR
  norm_num

theorem charge_check_ok_iff (residues : List Residue) :
    charge_check residues = Except.ok () ↔
      ∀ r ∈ residues, residue_charge_ok r = true := by
  unfold charge_check
  rcases h : residues.find? (fun r => ! residue_charge_ok r) with _ | r <;> simp
  · intro r hr
    have := List.find?_eq_none.mp h r hr
    simpa using this
  · exact ⟨r, List.mem_of_find?_eq_some h, by simpa using List.find?_some h⟩

theorem charge_check_cases (residues : List Residue) :
    charge_check residues = Except.ok () ∨
      charge_check residues = Except.error (PdbExn.valueError chargeTag) := by
  unfold charge_check
  rcases residues.find? (fun r => ! residue_charge_ok r) with _ | r <;> simp

theorem charge_check_error_iff (residues : List Residue) :
    charge_check residues = Except.error (PdbExn.valueError chargeTag) ↔
      ∃ r ∈ residues, residue_charge_ok r = false := by
  unfold charge_check
  rcases h : residues.find? (fun r => ! residue_charge_ok r) with _ | r <;> simp
  · intro r hr
    have := List.find?_eq_none.mp h r hr
    simpa using this
  · exact ⟨r, List.mem_of_find?_eq_some h, by simpa using List.find?_some h⟩

/-! ### Unfolding lemmas for the run paths of non_trivial -/

theorem non_trivial_assign_only (limit : ℚ) (args : Args) (p : Protein)
    (ligand : Option LigTable) (env : Env) (ha : args.assign_only = true) :
    non_trivial limit args p ligand env =
      ([Event.set_hip] ++ fin_events args p ligand,
       match charge_check p.residues with
       | Except.error e => Except.error e
       | Except.ok _ =>
         Except.ok ⟨env.hitlist ++ lig_matched ligand p, lig_missing ligand p⟩) := by
  simp [non_trivial, ha, finish_stage]

theorem non_trivial_bad_protein (limit : ℚ) (args : Args) (p : Protein)
    (ligand : Option LigTable) (env : Env) (e : PdbExn)
    (ha : args.assign_only = false)
    (hrep : is_repairable limit p ligand.isSome = Except.error e) :
    non_trivial limit args p ligand env = ([], Except.error e) := by
  simp [non_trivial, ha, hrep]

theorem non_trivial_pdb2pka (limit : ℚ) (args : Args) (p : Protein)
    (ligand : Option LigTable) (env : Env) (rep : Bool) (reps : List Report)
    (ha : args.assign_only = false)
    (hrep : is_repairable limit p ligand.isSome = Except.ok (rep, reps))
    (hm : args.pka_method = some PkaMethod.pdb2pka) :
    non_trivial limit args p ligand env =
      (reps.map Event.report ++ (if rep then [Event.repair] else [])
        ++ [Event.ss_update] ++ (if args.debump then [Event.debump] else []),
       Except.error (PdbExn.notImplementedError pdb2pkaTag)) := by
  simp [non_trivial, ha, hrep, hm]

theorem non_trivial_propka_err (limit : ℚ) (args : Args) (p : Protein)
    (ligand : Option LigTable) (env : Env) (rep : Bool) (reps : List Report)
    (e : PdbExn)
    (ha : args.assign_only = false)
    (hrep : is_repairable limit p ligand.isSome = Except.ok (rep, reps))
    (hm : args.pka_method = some PkaMethod.propka)
    (hcalc : env.propka = Except.error e) :
    non_trivial limit args p ligand env =
      (reps.map Event.report ++ (if rep then [Event.repair] else [])
        ++ [Event.ss_update] ++ (if args.debump then [Event.debump] else [])
        ++ [Event.remove_hydrogens, Event.run_propka],
       Except.error e) := by
  simp [non_trivial, ha, hrep, hm, hcalc]

theorem non_trivial_propka_ok (limit : ℚ) (args : Args) (p : Protein)
    (ligand : Option LigTable) (env : Env) (rep : Bool) (reps : List Report)
    (v : List (String × ℚ))
    (ha : args.assign_only = false)
    (hrep : is_repairable limit p ligand.isSome = Except.ok (rep, reps))
    (hm : args.pka_method = some PkaMethod.propka)
    (hcalc : env.propka = Except.ok v) :
    non_trivial limit args p ligand env =
      (reps.map Event.report ++ (if rep then [Event.repair] else [])
        ++ [Event.ss_update] ++ (if args.debump then [Event.debump] else [])
        ++ [Event.remove_hydrogens, Event.run_propka, Event.apply_pka]
        ++ hydro_events args ++ fin_events args p ligand,
       match charge_check p.residues with
       | Except.error e => Except.error e
       | Except.ok _ =>
         Except.ok ⟨env.hitlist ++ lig_matched ligand p, lig_missing ligand p⟩) := by
  simp [non_trivial, ha, hrep, hm, hcalc, finish_stage]

theorem non_trivial_nopka (limit : ℚ) (args : Args) (p : Protein)
    (ligand : Option LigTable) (env : Env) (rep : Bool) (reps : List Report)
    (ha : args.assign_only = false)
    (hrep : is_repairable limit p ligand.isSome = Except.ok (rep, reps))
    (hm : args.pka_method = none) :
    non_trivial limit args p ligand env =
      (reps.map Event.report ++ (if rep then [Event.repair] else [])
        ++ [Event.ss_update] ++ (if args.debump then [Event.debump] else [])
        ++ hydro_events args ++ fin_events args p ligand,
       match charge_check p.residues with
       | Except.error e => Except.error e
       | Except.ok _ =>
         Except.ok ⟨env.hitlist ++ lig_matched ligand p, lig_missing ligand p⟩) := by
  simp [non_trivial, ha, hrep, hm, finish_stage]

/-! ### Membership facts about the event segments -/

theorem not_mem_map_report (e : Event) (reps : List Report)
    (h : ∀ r : Report, e ≠ Event.report r) : e ∉ reps.map Event.report := by
  intro hmem
  rcases List.mem_map.mp hmem with ⟨r, _, hr⟩
  exact h r hr.symm

theorem mem_hydro_events (args : Args) (e : Event) :
    e ∈ hydro_events args ↔
      (e = Event.add_hydrogens ∨ (args.debump = true ∧ e = Event.debump)
        ∨ (args.opt = true ∧ e = Event.init_full_opt)
        ∨ (args.opt = false ∧ e = Event.init_wat_opt)
        ∨ e = Event.optimize ∨ e = Event.cleanup) := by
  unfold hydro_events
  cases hd : args.debump <;> cases ho : args.opt <;> simp [hd, ho]

theorem mem_fin_events (args : Args) (p : Protein) (ligand : Option LigTable)
    (e : Event) (h : e ∈ fin_events args p ligand) :
    e = Event.set_states ∨ e = Event.apply_force_field
      ∨ e = Event.process_ligand ∨ e = Event.charge_check
      ∨ e = Event.apply_name_scheme ∨ e = Event.make_header := by
  unfold fin_events at h
  rcases ligand with _ | t <;>
    rcases hc : charge_check p.residues with e' | u <;>
      rcases hf : args.ffout with _ | f <;>
        simp [hc, hf] at h <;> tauto

theorem ff_mem_fin_events (args : Args) (p : Protein) (ligand : Option LigTable) :
    Event.apply_force_field ∈ fin_events args p ligand := by
  unfold fin_events
  simp

/-! ### Shape of the result -/

theorem match_ok_inv (p : Protein) (ligand : Option LigTable) (env : Env)
    (res : RunResult)
    (h : (match charge_check p.residues with
          | Except.error e => Except.error e
          | Except.ok _ =>
            Except.ok (⟨env.hitlist ++ lig_matched ligand p,
              lig_missing ligand p⟩ : RunResult)) = Except.ok res) :
    charge_check p.residues = Except.ok () ∧
      res = ⟨env.hitlist ++ lig_matched ligand p, lig_missing ligand p⟩ := by
  rcases hc : charge_check p.residues with e | u
  · rw [hc] at h
    exact absurd h (by simp)
  · rw [hc] at h
    cases u
    exact ⟨rfl, by simpa using h.symm⟩

theorem ok_shape (limit : ℚ) (args : Args) (p : Protein)
    (ligand : Option LigTable) (env : Env) (res : RunResult)
    (h : (non_trivial limit args p ligand env).2 = Except.ok res) :
    charge_check p.residues = Except.ok () ∧
      res = ⟨env.hitlist ++ lig_matched ligand p, lig_missing ligand p⟩ := by
  by_cases ha : args.assign_only
  · rw [non_trivial_assign_only limit args p ligand env ha] at h
    exact match_ok_inv p ligand env res h
  · rw [Bool.not_eq_true] at ha
    rcases hrep : is_repairable limit p ligand.isSome with e | ⟨rep, reps⟩
    · rw [non_trivial_bad_protein limit args p ligand env e ha hrep] at h
      exact absurd h (by simp)
    · rcases hm : args.pka_method with _ | m
      · rw [non_trivial_nopka limit args p ligand env rep reps ha hrep hm] at h
        exact match_ok_inv p ligand env res h
      · cases m
        · rcases hcalc : env.propka with e' | v
          · rw [non_trivial_propka_err limit args p ligand env rep reps e' ha
              hrep hm hcalc] at h
            exact absurd h (by simp)
          · rw [non_trivial_propka_ok limit args p ligand env rep reps v ha
              hrep hm hcalc] at h
            exact match_ok_inv p ligand env res h
        · rw [non_trivial_pdb2pka limit args p ligand env rep reps ha hrep hm] at h
          exact absurd h (by simp)

theorem reach_ff (limit : ℚ) (args : Args) (p : Protein)
    (ligand : Option LigTable) (env : Env)
    (h : Event.apply_force_field ∈ (non_trivial limit args p ligand env).1) :
    (non_trivial limit args p ligand env).2 =
      match charge_check p.residues with
      | Except.error e => Except.error e
      | Except.ok _ =>
        Except.ok ⟨env.hitlist ++ lig_matched ligand p, lig_missing ligand p⟩ := by
  by_cases ha : args.assign_only
  · rw [non_trivial_assign_only limit args p ligand env ha]
  · rw [Bool.not_eq_true] at ha
    rcases hrep : is_repairable limit p ligand.isSome with e | ⟨rep, reps⟩
    · rw [non_trivial_bad_protein limit args p ligand env e ha hrep] at h
      simp at h
    · rcases hm : args.pka_method with _ | m
      · rw [non_trivial_nopka limit args p ligand env rep reps ha hrep hm]
      · cases m
        · rcases hcalc : env.propka with e' | v
          · rw [non_trivial_propka_err limit args p ligand env rep reps e' ha
              hrep hm hcalc] at h
            simp at h
          · rw [non_trivial_propka_ok limit args p ligand env rep reps v ha
              hrep hm hcalc]
        · rw [non_trivial_pdb2pka limit args p ligand env rep reps ha hrep hm] at h
          simp at h

/-! ### Claim C1: the residue-charge invariant check -/

/-- C1 (amended): after force-field assignment is reached in a non-trivial
run, if some residue of charge magnitude at most 10^6 has a summed charge
deviating from the nearest integer by more than the tolerance
CHARGE_ERROR = 1e-3, the run fails with the data-integrity ValueError;
conversely, every residue of charge magnitude at most 10^6 in a
successfully completed run satisfies |charge - round charge| <= 1e-3.
The magnitude bound is forced by the rel_tol = 1e-9 term of math.isclose,
which widens the effective tolerance beyond 1e-3 once |charge| exceeds
10^6 (see the counterexample). -/
theorem claim_C1 (limit : ℚ) (args : Args) (p : Protein)
    (ligand : Option LigTable) (env : Env) :
    (Event.apply_force_field ∈ (non_trivial limit args p ligand env).1 →
      (∃ r ∈ p.residues, |r.charge| ≤ 10^6 ∧
        CHARGE_ERROR < |r.charge - ((round r.charge : ℤ) : ℚ)|) →
      (non_trivial limit args p ligand env).2 =
        Except.error (PdbExn.valueError chargeTag)) ∧
    (∀ res, (non_trivial limit args p ligand env).2 = Except.ok res →
      ∀ r ∈ p.residues, |r.charge| ≤ 10^6 →
        |r.charge - ((round r.charge : ℤ) : ℚ)| ≤ CHARGE_ERROR) := by
  constructor
  · rintro hreach ⟨r, hr, hb, hdev⟩
    rw [reach_ff limit args p ligand env hreach]
    have hfail : residue_charge_ok r = false := by
      rw [Bool.eq_false_iff]
      intro htrue
      have h1 := (charge_ok_iff_bound r hb).mp htrue
      have h2 := round_closest r.charge
      linarith
    rw [(charge_check_error_iff p.residues).mpr ⟨r, hr, hfail⟩]
  · intro res hok r hr hb
    obtain ⟨hc, _⟩ := ok_shape limit args p ligand env res hok
    have h1 := (charge_check_ok_iff p.residues).mp hc r hr
    exact le_trans (round_closest r.charge) ((charge_ok_iff_bound r hb).mp h1)

/-- C1 counterexample: in a full (non-assign-only, non-clean) run whose one
residue carries charge 10^7 + 1/500 - which deviates from the nearest
integer by 1/500, more than the claimed tolerance 1e-3 - the run does NOT
fail: the charge check passes (at this magnitude the rel_tol = 1e-9 term of
math.isclose exceeds 1e-3) and the run completes successfully, refuting
both directions of the claim as stated. -/
theorem claim_C1_cex :
    CHARGE_ERROR < |bigRes.charge - ((round bigRes.charge : ℤ) : ℚ)| ∧
    bigRes ∈ bigProt.residues ∧
    Event.apply_force_field ∈
      (non_trivial (3/10) fullArgs bigProt none emptyEnv).1 ∧
    (non_trivial (3/10) fullArgs bigProt none emptyEnv).2 =
      Except.ok ⟨[], []⟩ := by
  have hch : bigRes.charge = 10^7 + 1/500 := rfl
  have hnn : (0:ℚ) ≤ bigRes.charge := by rw [hch]; norm_num
  have hfl : ⌊bigRes.charge⌋ = 10^7 := by
    rw [hch, Int.floor_eq_iff]
    constructor <;> push_cast <;> norm_num
  have hpy : py_int bigRes.charge = 10^7 := by
    unfold py_int
    rw [if_pos hnn, hfl]
  have hround : round bigRes.charge = 10^7 := by
    rw [round_eq, hch, Int.floor_eq_iff]
    constructor <;> push_cast <;> norm_num
  have hok : residue_charge_ok bigRes = true := by
    unfold residue_charge_ok isclose
    rw [decide_eq_true_eq, hpy, hch]
    have e1 : (10:ℚ)^7 + 1/500 - ((10^7 : ℤ) : ℚ) = 1/500 := by
      push_cast
      ring
    rw [e1, abs_of_pos (by norm_num : (0:ℚ) < 1/500)]
    have e2 : |(10:ℚ)^7 + 1/500| = 10^7 + 1/500 := abs_of_pos (by norm_num)
    have e3 : |((10^7 : ℤ) : ℚ)| = 10^7 := by
      push_cast
      rw [abs_of_pos] <;> norm_num
    rw [e2, e3, max_eq_left (by norm_num : (10:ℚ)^7 ≤ 10^7 + 1/500),
      max_eq_left]
    · unfold REL_TOL
      norm_num
    · unfold REL_TOL CHARGE_ERROR
      norm_num
  have hcc : charge_check bigProt.residues = Except.ok () := by
    refine (charge_check_ok_iff _).mpr ?_
    intro r hr
    have : r = bigRes := by simpa [bigProt] using hr
    rw [this]
    exact hok
  have hrep : is_repairable (3/10) bigProt (none : Option LigTable).isSome =
      Except.ok (false, [Report.biomolecule_clean]) := rfl
  refine ⟨?_, by simp [bigProt], ?_, ?_⟩
  · rw [hround, hch]
    have e1 : (10:ℚ)^7 + 1/500 - ((10^7 : ℤ) : ℚ) = 1/500 := by
      push_cast
      ring
    rw [e1, abs_of_pos (by norm_num : (0:ℚ) < 1/500)]
    unfold CHARGE_ERROR
    norm_num
  · rw [non_trivial_nopka (3/10) fullArgs bigProt none emptyEnv false
      [Report.biomolecule_clean] rfl hrep rfl]
    simp
    exact Or.inr (ff_mem_fin_events fullArgs bigProt none)
  · rw [non_trivial_nopka (3/10) fullArgs bigProt none emptyEnv false
      [Report.biomolecule_clean] rfl hrep rfl]
    simp only [hcc]
    rfl

/-- C1 witness: a concrete full run with a residue of charge 1/2 (within
the magnitude bound, deviating by 1/2 from the nearest integer) fails with
the data-integrity ValueError, by the amended theorem. -/
theorem claim_C1_witness :
    Event.apply_force_field ∈
      (non_trivial (3/10) fullArgs halfProt none emptyEnv).1 ∧
    (∃ r ∈ halfProt.residues, |r.charge| ≤ 10^6 ∧
      CHARGE_ERROR < |r.charge - ((round r.charge : ℤ) : ℚ)|) ∧
    (non_trivial (3/10) fullArgs halfProt none emptyEnv).2 =
      Except.error (PdbExn.valueError chargeTag) := by
  have hrep : is_repairable (3/10) halfProt (none : Option LigTable).isSome =
      Except.ok (false, [Report.biomolecule_clean]) := rfl
  have hreach : Event.apply_force_field ∈
      (non_trivial (3/10) fullArgs halfProt none emptyEnv).1 := by
    rw [non_trivial_nopka (3/10) fullArgs halfProt none emptyEnv false
      [Report.biomolecule_clean] rfl hrep rfl]
    simp
    exact Or.inr (ff_mem_fin_events fullArgs halfProt none)
  have hround : round halfRes.charge = 1 := by
    have hch : halfRes.charge = 1/2 := rfl
    rw [hch, round_eq]
    norm_num
  have hex : ∃ r ∈ halfProt.residues, |r.charge| ≤ 10^6 ∧
      CHARGE_ERROR < |r.charge - ((round r.charge : ℤ) : ℚ)| := by
    refine ⟨halfRes, by simp [halfProt], ?_, ?_⟩
    · have hch : halfRes.charge = 1/2 := rfl
      rw [hch]
      rw [abs_of_pos] <;> norm_num
    · rw [hround]
      have hch : halfRes.charge = 1/2 := rfl
      rw [hch]
      have e1 : (1:ℚ)/2 - ((1 : ℤ) : ℚ) = -(1/2) := by push_cast; ring
      rw [e1, abs_neg, abs_of_pos (by norm_num : (0:ℚ) < 1/2)]
      unfold CHARGE_ERROR
      norm_num
  exact ⟨hreach, hex,
    (claim_C1 (3/10) fullArgs halfProt none emptyEnv).1 hreach hex⟩

/-! ### Claim C2: the fate of force-field-unmapped atoms -/

/-- C2 counterexample: in a run whose force-field lookup misses `cbAtom`
(an atom of the structure), the run completes, yet `cbAtom` appears neither
in the emitted structure lines nor in the surfaced missing-atoms report,
although nothing was configured to drop it: the miss-list is silently
discarded, refuting the claim. -/
theorem claim_C2_cex :
    cbAtom ∈ miss1Env.misslist ∧
    cbAtom ∈ alaRes.atoms ∧ alaRes ∈ miss1Prot.residues ∧
    (non_trivial (3/10) fullArgs miss1Prot none miss1Env).2 =
      Except.ok ⟨[caAtom], []⟩ ∧
    cbAtom ∉ [caAtom] ∧ cbAtom ∉ ([] : List Atom) := by
  have hok : residue_charge_ok alaRes = true :=
    residue_charge_ok_intCast alaRes 0 (by norm_num [alaRes])
  have hcc : charge_check miss1Prot.residues = Except.ok () := by
    refine (charge_check_ok_iff _).mpr ?_
    intro r hr
    have : r = alaRes := by simpa [miss1Prot] using hr
    rw [this]
    exact hok
  have hrep : is_repairable (3/10) miss1Prot (none : Option LigTable).isSome =
      Except.ok (false, [Report.biomolecule_clean]) := rfl
  refine ⟨by simp [miss1Env], by simp [alaRes], by simp [miss1Prot], ?_,
    by simp [cbAtom, caAtom], by simp⟩
  rw [non_trivial_nopka (3/10) fullArgs miss1Prot none miss1Env false
    [Report.biomolecule_clean] rfl hrep rfl]
  simp only [hcc]
  rfl

/-- C2 (amended): atoms left unmapped by the force-field lookup are
returned in a miss-list, but the miss-list is discarded by the driver:
the emitted structure contains exactly the force-field hit-list followed
by the matched ligand atoms, and the surfaced missing-atoms report
contains exactly the unmatched ligand atoms; hence an unmapped atom that
is in neither of those is absent from both outputs. -/
theorem claim_C2 (limit : ℚ) (args : Args) (p : Protein)
    (ligand : Option LigTable) (env : Env) (res : RunResult)
    (hok : (non_trivial limit args p ligand env).2 = Except.ok res) :
    res.lines = env.hitlist ++ lig_matched ligand p ∧
    res.missing_atoms = lig_missing ligand p ∧
    ∀ a ∈ env.misslist, a ∉ env.hitlist → a ∉ lig_matched ligand p →
      a ∉ lig_missing ligand p →
      a ∉ res.lines ∧ a ∉ res.missing_atoms := by
  obtain ⟨-, hres⟩ := ok_shape limit args p ligand env res hok
  subst hres
  refine ⟨rfl, rfl, ?_⟩
  intro a _ h1 h2 h3
  constructor
  · simp only [List.mem_append]
    rintro (h | h)
    · exact h1 h
    · exact h2 h
  · exact h3

/-- C2 witness: the amended theorem applied to the counterexample run:
`cbAtom` is in the miss-list and ends up in neither output list. -/
theorem claim_C2_witness :
    (non_trivial (3/10) fullArgs miss1Prot none miss1Env).2 =
      Except.ok ⟨[caAtom], []⟩ ∧
    cbAtom ∈ miss1Env.misslist ∧
    cbAtom ∉ (⟨[caAtom], []⟩ : RunResult).lines ∧
    cbAtom ∉ (⟨[caAtom], []⟩ : RunResult).missing_atoms := by
  have hok : residue_charge_ok alaRes = true :=
    residue_charge_ok_intCast alaRes 0 (by norm_num [alaRes])
  have hcc : charge_check miss1Prot.residues = Except.ok () := by
    refine (charge_check_ok_iff _).mpr ?_
    intro r hr
    have : r = alaRes := by simpa [miss1Prot] using hr
    rw [this]
    exact hok
  have hrep : is_repairable (3/10) miss1Prot (none : Option LigTable).isSome =
      Except.ok (false, [Report.biomolecule_clean]) := rfl
  have hres : (non_trivial (3/10) fullArgs miss1Prot none miss1Env).2 =
      Except.ok ⟨[caAtom], []⟩ := by
    rw [non_trivial_nopka (3/10) fullArgs miss1Prot none miss1Env false
      [Report.biomolecule_clean] rfl hrep rfl]
    simp only [hcc]
    rfl
  have hmain := claim_C2 (3/10) fullArgs miss1Prot none miss1Env
    ⟨[caAtom], []⟩ hres
  have hnot := hmain.2.2 cbAtom (by simp [miss1Env])
    (by simp [miss1Env, cbAtom, caAtom]) (by simp [lig_matched])
    (by simp [lig_missing])
  exact ⟨hres, by simp [miss1Env], hnot.1, hnot.2⟩

/-! ### Claims C3 and C4: repairability checking -/

theorem mem_ite_singleton {α : Type} (x y : α) (c : Prop) [Decidable c] :
    (x ∈ if c then [y] else []) ↔ c ∧ x = y := by
  split <;> simp_all

theorem repair_not_mem_hydro (args : Args) :
    Event.repair ∉ hydro_events args := by
  simp [mem_hydro_events]

theorem repair_not_mem_fin (args : Args) (p : Protein) (ligand : Option LigTable) :
    Event.repair ∉ fin_events args p ligand := by
  intro h
  rcases mem_fin_events args p ligand _ h with h | h | h | h | h | h <;> simp at h

/-- C3: for a biomolecule with at least one heavy atom and a nonnegative
configured repair limit: when the missing-heavy-atom fraction exceeds the
limit, `is_repairable` returns False without raising, the condition is
logged at error severity, the repair stage is skipped, and the run is not
aborted by this condition (it proceeds to the disulfide-update stage);
when the fraction is at or below the limit and at least one atom is
missing, `is_repairable` returns True (repair is attempted). -/
theorem claim_C3 (limit : ℚ) (args : Args) (p : Protein)
    (ligand : Option LigTable) (env : Env)
    (ha : args.assign_only = false) (hheavy : p.num_heavy ≠ 0)
    (hlim : 0 ≤ limit) :
    (limit < (p.num_missing_heavy : ℚ) / (p.num_heavy : ℚ) →
      is_repairable limit p ligand.isSome =
        Except.ok (false, [Report.too_many_missing]) ∧
      report_level Report.too_many_missing = LogLevel.error ∧
      Event.report Report.too_many_missing ∈
        (non_trivial limit args p ligand env).1 ∧
      Event.repair ∉ (non_trivial limit args p ligand env).1 ∧
      Event.ss_update ∈ (non_trivial limit args p ligand env).1) ∧
    ((p.num_missing_heavy : ℚ) / (p.num_heavy : ℚ) ≤ limit →
      p.num_missing_heavy ≠ 0 →
      is_repairable limit p ligand.isSome = Except.ok (true, [])) := by
  constructor
  · intro hfrac
    have hmiss : p.num_missing_heavy ≠ 0 := by
      intro h0
      rw [h0] at hfrac
      simp at hfrac
      linarith
    have hrep : is_repairable limit p ligand.isSome =
        Except.ok (false, [Report.too_many_missing]) := by
      unfold is_repairable
      rw [if_neg hheavy, if_neg hmiss, if_pos hfrac]
    have htr : Event.report Report.too_many_missing ∈
        (non_trivial limit args p ligand env).1 ∧
        Event.repair ∉ (non_trivial limit args p ligand env).1 ∧
        Event.ss_update ∈ (non_trivial limit args p ligand env).1 := by
      rcases hm : args.pka_method with _ | m
      · rw [non_trivial_nopka limit args p ligand env false
          [Report.too_many_missing] ha hrep hm]
        exact ⟨by simp, by simp [mem_ite_singleton, repair_not_mem_hydro,
          repair_not_mem_fin], by simp⟩
      · cases m
        · rcases hcalc : env.propka with e | v
          · rw [non_trivial_propka_err limit args p ligand env false
              [Report.too_many_missing] e ha hrep hm hcalc]
            exact ⟨by simp, by simp [mem_ite_singleton], by simp⟩
          · rw [non_trivial_propka_ok limit args p ligand env false
              [Report.too_many_missing] v ha hrep hm hcalc]
            exact ⟨by simp, by simp [mem_ite_singleton, repair_not_mem_hydro,
              repair_not_mem_fin], by simp⟩
        · rw [non_trivial_pdb2pka limit args p ligand env false
            [Report.too_many_missing] ha hrep hm]
          exact ⟨by simp, by simp [mem_ite_singleton], by simp⟩
    exact ⟨hrep, rfl, htr.1, htr.2.1, htr.2.2⟩
  · intro hfrac hmiss
    unfold is_repairable
    rw [if_neg hheavy, if_neg hmiss, if_neg (not_lt.mpr hfrac)]

/-- C3 witness: with repair limit 3/10, a protein missing 5 of 10 heavy
atoms has its repair skipped without aborting the run, and a protein
missing 2 of 10 heavy atoms is declared repairable. -/
theorem claim_C3_witness :
    is_repairable (3/10) missManyProt false =
      Except.ok (false, [Report.too_many_missing]) ∧
    Event.repair ∉ (non_trivial (3/10) fullArgs missManyProt none emptyEnv).1 ∧
    Event.ss_update ∈ (non_trivial (3/10) fullArgs missManyProt none emptyEnv).1 ∧
    is_repairable (3/10) missFewProt false = Except.ok (true, []) := by
  have h1 := (claim_C3 (3/10) fullArgs missManyProt none emptyEnv rfl
    (by decide) (by norm_num)).1 (by norm_num [missManyProt])
  have h2 := (claim_C3 (3/10) fullArgs missFewProt none emptyEnv rfl
    (by decide) (by norm_num)).2 (by norm_num [missFewProt])
    (by decide)
  exact ⟨h1.1, h1.2.2.2.1, h1.2.2.2.2, h2⟩

/-- C4: `is_repairable` raises (a ValueError) exactly when the structure
has zero heavy atoms and no ligand is present; with zero heavy atoms but a
ligand present it does not raise, returns False, and logs the condition at
warning severity. -/
theorem claim_C4 (limit : ℚ) (p : Protein) (has_ligand : Bool) :
    ((∃ e, is_repairable limit p has_ligand = Except.error e) ↔
      p.num_heavy = 0 ∧ has_ligand = false) ∧
    (p.num_heavy = 0 → has_ligand = false →
      is_repairable limit p has_ligand =
        Except.error (PdbExn.valueError noHeavyTag)) ∧
    (p.num_heavy = 0 → has_ligand = true →
      is_repairable limit p has_ligand =
        Except.ok (false, [Report.no_heavy_with_ligand]) ∧
      report_level Report.no_heavy_with_ligand = LogLevel.warning) := by
  unfold is_repairable
  by_cases h0 : p.num_heavy = 0
  · rw [if_pos h0]
    cases hl : has_ligand <;> simp [h0, report_level]
  · rw [if_neg h0]
    refine ⟨?_, fun h => absurd h h0, fun h => absurd h h0⟩
    constructor
    · rintro ⟨e, he⟩
      exfalso
      revert he
      split_ifs <;> simp
    · rintro ⟨h, -⟩
      exact absurd h h0

/-- C4 witness: a protein with no heavy atoms raises the ValueError without
a ligand and is declared unrepairable (with only a warning) with one. -/
theorem claim_C4_witness :
    (zeroProt.num_heavy = 0 ∧
      is_repairable 1 zeroProt false =
        Except.error (PdbExn.valueError noHeavyTag)) ∧
    is_repairable 1 zeroProt true =
      Except.ok (false, [Report.no_heavy_with_ligand]) :=
  ⟨⟨rfl, (claim_C4 1 zeroProt false).2.1 rfl rfl⟩,
    ((claim_C4 1 zeroProt true).2.2 rfl rfl).1⟩

/-! ### Claims C5 and C6: stage ordering -/

theorem filter_c5_reports (reps : List Report) :
    (reps.map Event.report).filter c5Keep = [] := by
  induction reps with
  | nil => rfl
  | cons r t ih =>
    rw [List.map_cons, List.filter_cons]
    simp only [show c5Keep (Event.report r) = false from rfl,
      Bool.false_eq_true, if_false]
    exact ih

theorem filter_c6_reports (reps : List Report) :
    (reps.map Event.report).filter c6Keep = [] := by
  induction reps with
  | nil => rfl
  | cons r t ih =>
    rw [List.map_cons, List.filter_cons]
    simp only [show c6Keep (Event.report r) = false from rfl,
      Bool.false_eq_true, if_false]
    exact ih

theorem filter_c5_hydro (args : Args) (hd : args.debump = true) :
    (hydro_events args).filter c5Keep =
      [Event.add_hydrogens, Event.debump] := by
  unfold hydro_events
  rw [hd]
  cases ho : args.opt <;> rfl

theorem filter_c6_hydro (args : Args) (hd : args.debump = true) :
    (hydro_events args).filter c6Keep =
      [Event.add_hydrogens, Event.debump, Event.optimize] := by
  unfold hydro_events
  rw [hd]
  cases ho : args.opt <;> rfl

theorem filter_c5_fin (args : Args) (p : Protein) (ligand : Option LigTable) :
    (fin_events args p ligand).filter c5Keep = [] := by
  unfold fin_events
  rcases ligand with _ | t <;> rcases hc : charge_check p.residues with e | u <;>
    rcases hf : args.ffout with _ | f <;> simp only [hc, hf] <;> rfl

theorem filter_c6_fin (args : Args) (p : Protein) (ligand : Option LigTable)
    (hc : charge_check p.residues = Except.ok ()) :
    (fin_events args p ligand).filter c6Keep =
      [Event.apply_force_field, Event.charge_check] := by
  unfold fin_events
  rw [hc]
  rcases ligand with _ | t <;> rcases hf : args.ffout with _ | f <;>
    simp only [hf] <;> rfl

/-- C5: in a non-trivial run that is not assign-only, with debumping not
disabled, and that runs to completion, the debump stage executes exactly
twice: restricted to the repair / disulfide-update / debump /
hydrogen-addition stages, the trace is (repair +) disulfide-update, then
the first debump, then hydrogen addition, then the second debump. -/
theorem claim_C5 (limit : ℚ) (args : Args) (p : Protein)
    (ligand : Option LigTable) (env : Env) (res : RunResult)
    (ha : args.assign_only = false) (hd : args.debump = true)
    (hok : (non_trivial limit args p ligand env).2 = Except.ok res) :
    (non_trivial limit args p ligand env).1.filter c5Keep =
        [Event.ss_update, Event.debump, Event.add_hydrogens, Event.debump] ∨
    (non_trivial limit args p ligand env).1.filter c5Keep =
        [Event.repair, Event.ss_update, Event.debump, Event.add_hydrogens,
          Event.debump] := by
  rcases hrep : is_repairable limit p ligand.isSome with e | ⟨rep, reps⟩
  · rw [non_trivial_bad_protein limit args p ligand env e ha hrep] at hok
    simp at hok
  · rcases hm : args.pka_method with _ | m
    · rw [non_trivial_nopka limit args p ligand env rep reps ha hrep hm]
      cases rep
      · left
        simp [List.filter_append, filter_c5_reports,
          filter_c5_hydro args hd, filter_c5_fin, hd, List.filter_cons,
          show c5Keep Event.ss_update = true from rfl,
          show c5Keep Event.debump = true from rfl]
      · right
        simp [List.filter_append, filter_c5_reports,
          filter_c5_hydro args hd, filter_c5_fin, hd, List.filter_cons,
          show c5Keep Event.ss_update = true from rfl,
          show c5Keep Event.debump = true from rfl,
          show c5Keep Event.repair = true from rfl]
    · cases m
      · rcases hcalc : env.propka with e | v
        · rw [non_trivial_propka_err limit args p ligand env rep reps e ha
            hrep hm hcalc] at hok
          simp at hok
        · rw [non_trivial_propka_ok limit args p ligand env rep reps v ha
            hrep hm hcalc]
          cases rep
          · left
            simp [List.filter_append, filter_c5_reports,
              filter_c5_hydro args hd, filter_c5_fin, hd, List.filter_cons,
              show c5Keep Event.ss_update = true from rfl,
              show c5Keep Event.debump = true from rfl,
              show c5Keep Event.remove_hydrogens = false from rfl,
              show c5Keep Event.run_propka = false from rfl,
              show c5Keep Event.apply_pka = false from rfl]
          · right
            simp [List.filter_append, filter_c5_reports,
              filter_c5_hydro args hd, filter_c5_fin, hd, List.filter_cons,
              show c5Keep Event.ss_update = true from rfl,
              show c5Keep Event.debump = true from rfl,
              show c5Keep Event.repair = true from rfl,
              show c5Keep Event.remove_hydrogens = false from rfl,
              show c5Keep Event.run_propka = false from rfl,
              show c5Keep Event.apply_pka = false from rfl]
      · rw [non_trivial_pdb2pka limit args p ligand env rep reps ha hrep hm]
          at hok
        simp at hok

/-- C5 witness: a concrete completing full run debumps exactly twice, in
the stated positions. -/
theorem claim_C5_witness :
    (non_trivial (3/10) fullArgs cleanProt none emptyEnv).2 =
      Except.ok ⟨[], []⟩ ∧
    ((non_trivial (3/10) fullArgs cleanProt none emptyEnv).1.filter c5Keep =
        [Event.ss_update, Event.debump, Event.add_hydrogens, Event.debump] ∨
      (non_trivial (3/10) fullArgs cleanProt none emptyEnv).1.filter c5Keep =
        [Event.repair, Event.ss_update, Event.debump, Event.add_hydrogens,
          Event.debump]) :=
  ⟨rfl, claim_C5 (3/10) fullArgs cleanProt none emptyEnv ⟨[], []⟩ rfl rfl rfl⟩

/-- C6: in a completing non-assign-only run with debumping enabled, the
pipeline stages execute in the claimed fixed order: restricted to the
stages named by the claim, the trace is repair (when performed),
disulfide-bridge update, clash resolution, titration-state application
(exactly when the PROPKA method was requested), hydrogen addition, the
second clash resolution, hydrogen optimization, force-field assignment and
finally the residue-charge invariant check; in particular the claimed
sequence (which lists clash resolution once) is a subsequence of the
trace. -/
theorem claim_C6 (limit : ℚ) (args : Args) (p : Protein)
    (ligand : Option LigTable) (env : Env) (res : RunResult)
    (ha : args.assign_only = false) (hd : args.debump = true)
    (hok : (non_trivial limit args p ligand env).2 = Except.ok res) :
    ∃ did_repair did_titrate : Bool,
      ((non_trivial limit args p ligand env).1.filter c6Keep =
        (if did_repair then [Event.repair] else [])
          ++ [Event.ss_update, Event.debump]
          ++ (if did_titrate then [Event.apply_pka] else [])
          ++ [Event.add_hydrogens, Event.debump, Event.optimize,
              Event.apply_force_field, Event.charge_check]) ∧
      (did_titrate = true ↔ args.pka_method = some PkaMethod.propka) ∧
      ((if did_repair then [Event.repair] else [])
          ++ [Event.ss_update, Event.debump]
          ++ (if did_titrate then [Event.apply_pka] else [])
          ++ [Event.add_hydrogens, Event.optimize, Event.apply_force_field,
              Event.charge_check]).Sublist
        (non_trivial limit args p ligand env).1 := by
  obtain ⟨hc, -⟩ := ok_shape limit args p ligand env res hok
  rcases hrep : is_repairable limit p ligand.isSome with e | ⟨rep, reps⟩
  · rw [non_trivial_bad_protein limit args p ligand env e ha hrep] at hok
    simp at hok
  · rcases hm : args.pka_method with _ | m
    · refine ⟨rep, false, ?_, by simp [hm], ?_⟩
      · rw [non_trivial_nopka limit args p ligand env rep reps ha hrep hm]
        cases rep <;>
          simp [List.filter_append, filter_c6_reports,
            filter_c6_hydro args hd, filter_c6_fin args p ligand hc, hd,
            List.filter_cons,
            show c6Keep Event.ss_update = true from rfl,
            show c6Keep Event.debump = true from rfl,
            show c6Keep Event.repair = true from rfl]
      · have hfil : (non_trivial limit args p ligand env).1.filter c6Keep =
            (if rep then [Event.repair] else [])
              ++ [Event.ss_update, Event.debump]
              ++ ([] : List Event)
              ++ [Event.add_hydrogens, Event.debump, Event.optimize,
                  Event.apply_force_field, Event.charge_check] := by
          rw [non_trivial_nopka limit args p ligand env rep reps ha hrep hm]
          cases rep <;>
            simp [List.filter_append, filter_c6_reports,
              filter_c6_hydro args hd, filter_c6_fin args p ligand hc, hd,
              List.filter_cons,
              show c6Keep Event.ss_update = true from rfl,
              show c6Keep Event.debump = true from rfl,
              show c6Keep Event.repair = true from rfl]
        refine List.Sublist.trans ?_
          (hfil ▸ List.filter_sublist (non_trivial limit args p ligand env).1)
        cases rep <;> simp
    · cases m
      · rcases hcalc : env.propka with e | v
        · rw [non_trivial_propka_err limit args p ligand env rep reps e ha
            hrep hm hcalc] at hok
          simp at hok
        · refine ⟨rep, true, ?_, by simp [hm], ?_⟩
          · rw [non_trivial_propka_ok limit args p ligand env rep reps v ha
              hrep hm hcalc]
            cases rep <;>
              simp [List.filter_append, filter_c6_reports,
                filter_c6_hydro args hd, filter_c6_fin args p ligand hc, hd,
                List.filter_cons,
                show c6Keep Event.ss_update = true from rfl,
                show c6Keep Event.debump = true from rfl,
                show c6Keep Event.repair = true from rfl,
                show c6Keep Event.remove_hydrogens = false from rfl,
                show c6Keep Event.run_propka = false from rfl,
                show c6Keep Event.apply_pka = true from rfl]
          · have hfil : (non_trivial limit args p ligand env).1.filter c6Keep =
                (if rep then [Event.repair] else [])
                  ++ [Event.ss_update, Event.debump]
                  ++ [Event.apply_pka]
                  ++ [Event.add_hydrogens, Event.debump, Event.optimize,
                      Event.apply_force_field, Event.charge_check] := by
              rw [non_trivial_propka_ok limit args p ligand env rep reps v ha
                hrep hm hcalc]
              cases rep <;>
                simp [List.filter_append, filter_c6_reports,
                  filter_c6_hydro args hd, filter_c6_fin args p ligand hc, hd,
                  List.filter_cons,
                  show c6Keep Event.ss_update = true from rfl,
                  show c6Keep Event.debump = true from rfl,
                  show c6Keep Event.repair = true from rfl,
                  show c6Keep Event.remove_hydrogens = false from rfl,
                  show c6Keep Event.run_propka = false from rfl,
                  show c6Keep Event.apply_pka = true from rfl]
            refine List.Sublist.trans ?_
              (hfil ▸ List.filter_sublist (non_trivial limit args p ligand env).1)
            cases rep <;> simp
      · rw [non_trivial_pdb2pka limit args p ligand env rep reps ha hrep hm]
          at hok
        simp at hok

/-- C6 witness: a concrete completing full run executes the stages in the
claimed order. -/
theorem claim_C6_witness :
    (non_trivial (3/10) fullArgs cleanProt none emptyEnv).2 =
      Except.ok ⟨[], []⟩ ∧
    (∃ did_repair did_titrate : Bool,
      ((non_trivial (3/10) fullArgs cleanProt none emptyEnv).1.filter c6Keep =
        (if did_repair then [Event.repair] else [])
          ++ [Event.ss_update, Event.debump]
          ++ (if did_titrate then [Event.apply_pka] else [])
          ++ [Event.add_hydrogens, Event.debump, Event.optimize,
              Event.apply_force_field, Event.charge_check]) ∧
      (did_titrate = true ↔ fullArgs.pka_method = some PkaMethod.propka) ∧
      ((if did_repair then [Event.repair] else [])
          ++ [Event.ss_update, Event.debump]
          ++ (if did_titrate then [Event.apply_pka] else [])
          ++ [Event.add_hydrogens, Event.optimize, Event.apply_force_field,
              Event.charge_check]).Sublist
        (non_trivial (3/10) fullArgs cleanProt none emptyEnv).1) :=
  ⟨rfl, claim_C6 (3/10) fullArgs cleanProt none emptyEnv ⟨[], []⟩ rfl rfl rfl⟩

/-! ### Claim C7: unmapped ligand heteroatoms -/

theorem scan_matched_lookup (t : LigTable) :
    ∀ (atoms : List Atom) (a : Atom), a ∈ (ligand_residue_scan t atoms).1 →
      ∃ v, lig_lookup t a.name = some v := by
  intro atoms
  induction atoms with
  | nil =>
    intro a ha
    simp [ligand_residue_scan] at ha
  | cons b rest ih =>
    intro a ha
    cases hb : (b.type == "ATOM")
    · rcases hl : lig_lookup t b.name with _ | v
      · simp only [ligand_residue_scan, hb, Bool.false_eq_true, if_false,
          hl] at ha
        exact ih a ha
      · simp only [ligand_residue_scan, hb, Bool.false_eq_true, if_false,
          hl, List.mem_cons] at ha
        rcases ha with rfl | ha
        · exact ⟨v, hl⟩
        · exact ih a ha
    · simp [ligand_residue_scan, hb] at ha

theorem scan_missing_mem (t : LigTable) :
    ∀ (atoms : List Atom) (a : Atom), a ∈ atoms →
      (∀ b ∈ atoms, b.type ≠ "ATOM") → lig_lookup t a.name = none →
      a ∈ (ligand_residue_scan t atoms).2 := by
  intro atoms
  induction atoms with
  | nil =>
    intro a ha _ _
    simp at ha
  | cons b rest ih =>
    intro a ha hhet hmiss
    have hb : (b.type == "ATOM") = false :=
      beq_eq_false_iff_ne.mpr (hhet b (by simp))
    rcases List.mem_cons.mp ha with rfl | hrest
    · simp [ligand_residue_scan, hb, hmiss]
    · have ih' := ih a hrest (fun c hc => hhet c (by simp [hc])) hmiss
      rcases hl : lig_lookup t b.name with _ | v
      · simp only [ligand_residue_scan, hb, Bool.false_eq_true, if_false,
          hl, List.mem_cons]
        exact Or.inr ih'
      · simp only [ligand_residue_scan, hb, Bool.false_eq_true, if_false, hl]
        exact ih'

theorem lig_missing_mem (t : LigTable) (p : Protein) (r : Residue) (a : Atom)
    (hr : r ∈ p.residues) (hmem : a ∈ r.atoms)
    (hhet : ∀ b ∈ r.atoms, b.type ≠ "ATOM")
    (hmiss : lig_lookup t a.name = none) :
    a ∈ lig_missing (some t) p := by
  unfold lig_missing ligand_scan
  exact List.mem_flatten.mpr ⟨(ligand_residue_scan t r.atoms).2,
    List.mem_map_of_mem _ hr, scan_missing_mem t r.atoms a hmem hhet hmiss⟩

theorem lig_matched_not_mem (t : LigTable) (p : Protein) (a : Atom)
    (hmiss : lig_lookup t a.name = none) :
    a ∉ lig_matched (some t) p := by
  unfold lig_matched ligand_scan
  intro ha
  rcases List.mem_flatten.mp ha with ⟨l, hl, hal⟩
  rcases List.mem_map.mp hl with ⟨r, _, rfl⟩
  rcases scan_matched_lookup t r.atoms a hal with ⟨v, hv⟩
  rw [hv] at hmiss
  cases hmiss

/-- C7: when a ligand is supplied, a heteroatom of a heteroatom-only
residue whose name is absent from the ligand parameter table is appended
to the missing-atoms report and never to the matched ligand list; the
ligand block raises nothing, so whenever force-field assignment is reached
and the charge invariant holds the run completes, with the atom in the
surfaced missing-atoms report and excluded from the output lines (it is
not in the force-field hit-list either). -/
theorem claim_C7 (limit : ℚ) (args : Args) (p : Protein) (t : LigTable)
    (env : Env) (r : Residue) (a : Atom)
    (hr : r ∈ p.residues) (hmem : a ∈ r.atoms)
    (hhet : ∀ b ∈ r.atoms, b.type ≠ "ATOM")
    (hmiss : lig_lookup t a.name = none) :
    (Event.apply_force_field ∈ (non_trivial limit args p (some t) env).1 →
      charge_check p.residues = Except.ok () →
      (non_trivial limit args p (some t) env).2 =
        Except.ok ⟨env.hitlist ++ lig_matched (some t) p,
          lig_missing (some t) p⟩) ∧
    a ∈ lig_missing (some t) p ∧
    a ∉ lig_matched (some t) p ∧
    (∀ res, (non_trivial limit args p (some t) env).2 = Except.ok res →
      a ∉ env.hitlist → a ∈ res.missing_atoms ∧ a ∉ res.lines) := by
  have h2 := lig_missing_mem t p r a hr hmem hhet hmiss
  have h3 := lig_matched_not_mem t p a hmiss
  refine ⟨?_, h2, h3, ?_⟩
  · intro hreach hc
    rw [reach_ff limit args p (some t) env hreach, hc]
  · intro res hok hhit
    obtain ⟨-, hres⟩ := ok_shape limit args p (some t) env res hok
    subst hres
    refine ⟨h2, ?_⟩
    simp only [List.mem_append]
    rintro (h | h)
    · exact hhit h
    · exact h3 h

/-- C7 witness: a concrete run with a ligand whose table lacks the
heteroatom name `XX`: the run completes, the atom is reported missing and
is excluded from the output lines. -/
theorem claim_C7_witness :
    ∃ res, (non_trivial 1 assignArgs hetProt (some ligTab) emptyEnv).2 =
        Except.ok res ∧
      hetAtom ∈ res.missing_atoms ∧ hetAtom ∉ res.lines := by
  have hhet : ∀ b ∈ hetRes.atoms, b.type ≠ "ATOM" := by
    intro b hb
    simp [hetRes] at hb
    rw [hb]
    simp [hetAtom]
  have hmain := claim_C7 1 assignArgs hetProt ligTab emptyEnv hetRes hetAtom
    (by simp [hetProt]) (by simp [hetRes]) hhet rfl
  have hc : charge_check hetProt.residues = Except.ok () := by
    refine (charge_check_ok_iff _).mpr ?_
    intro r hr
    have : r = hetRes := by simpa [hetProt] using hr
    rw [this]
    exact residue_charge_ok_intCast hetRes 0 (by norm_num [hetRes])
  have hreach : Event.apply_force_field ∈
      (non_trivial 1 assignArgs hetProt (some ligTab) emptyEnv).1 := by
    rw [non_trivial_assign_only 1 assignArgs hetProt (some ligTab) emptyEnv rfl]
    simp
    exact ff_mem_fin_events assignArgs hetProt (some ligTab)
  have hres := hmain.1 hreach hc
  have hfinal := hmain.2.2.2
    ⟨emptyEnv.hitlist ++ lig_matched (some ligTab) hetProt,
      lig_missing (some ligTab) hetProt⟩ hres (by simp [emptyEnv])
  exact ⟨_, hres, hfinal.1, hfinal.2⟩

/-! ### Claim C8: failure of the external titration calculator -/

/-- C8: if the PROPKA titration method was requested and the external
calculator raises, the run aborts with exactly that error (it propagates
to the caller unrecovered), no protonation states are applied, and no
hydrogens are added. -/
theorem claim_C8 (limit : ℚ) (args : Args) (p : Protein)
    (ligand : Option LigTable) (env : Env) (e : PdbExn)
    (rep : Bool) (reps : List Report)
    (ha : args.assign_only = false)
    (hm : args.pka_method = some PkaMethod.propka)
    (hcalc : env.propka = Except.error e)
    (hrep : is_repairable limit p ligand.isSome = Except.ok (rep, reps)) :
    (non_trivial limit args p ligand env).2 = Except.error e ∧
    Event.apply_pka ∉ (non_trivial limit args p ligand env).1 ∧
    Event.add_hydrogens ∉ (non_trivial limit args p ligand env).1 := by
  rw [non_trivial_propka_err limit args p ligand env rep reps e ha hrep hm
    hcalc]
  exact ⟨rfl, by simp [mem_ite_singleton], by simp [mem_ite_singleton]⟩

/-- C8 witness: a concrete full run in which the calculator raises: the
same error is returned and no protonation state is applied. -/
theorem claim_C8_witness :
    propkaArgs.pka_method = some PkaMethod.propka ∧
    failEnv.propka = Except.error (PdbExn.calcError calcFailTag) ∧
    (non_trivial (3/10) propkaArgs cleanProt none failEnv).2 =
      Except.error (PdbExn.calcError calcFailTag) ∧
    Event.apply_pka ∉ (non_trivial (3/10) propkaArgs cleanProt none failEnv).1 :=
  have h := claim_C8 (3/10) propkaArgs cleanProt none failEnv
    (PdbExn.calcError calcFailTag) false [Report.biomolecule_clean]
    rfl rfl rfl rfl
  ⟨rfl, rfl, h.1, h.2.1⟩

/-! ### Claim C9: the PDB2PKA method -/

/-- C9 counterexample: an assign-only run that selects the PDB2PKA
titration method completes successfully (the titration branch is skipped
entirely on the assign-only path), refuting the claim that no run using
that method can complete. -/
theorem claim_C9_cex :
    assignPdb2pkaArgs.pka_method = some PkaMethod.pdb2pka ∧
    (non_trivial 1 assignPdb2pkaArgs cleanProt none emptyEnv).2 =
      Except.ok ⟨[], []⟩ :=
  ⟨rfl, rfl⟩

/-- C9 (amended): in a run that is not assign-only, selecting the PDB2PKA
method means the run can never complete; whenever the repairability check
does not itself raise, the run fails with NotImplementedError before any
hydrogens are added. -/
theorem claim_C9 (limit : ℚ) (args : Args) (p : Protein)
    (ligand : Option LigTable) (env : Env)
    (ha : args.assign_only = false)
    (hm : args.pka_method = some PkaMethod.pdb2pka) :
    (∀ res, (non_trivial limit args p ligand env).2 ≠ Except.ok res) ∧
    (∀ rep reps, is_repairable limit p ligand.isSome = Except.ok (rep, reps) →
      (non_trivial limit args p ligand env).2 =
        Except.error (PdbExn.notImplementedError pdb2pkaTag) ∧
      Event.add_hydrogens ∉ (non_trivial limit args p ligand env).1) := by
  constructor
  · intro res hok
    rcases hrep : is_repairable limit p ligand.isSome with e | ⟨rep, reps⟩
    · rw [non_trivial_bad_protein limit args p ligand env e ha hrep] at hok
      simp at hok
    · rw [non_trivial_pdb2pka limit args p ligand env rep reps ha hrep hm]
        at hok
      simp at hok
  · intro rep reps hrep
    rw [non_trivial_pdb2pka limit args p ligand env rep reps ha hrep hm]
    exact ⟨rfl, by simp [mem_ite_singleton]⟩

/-- C9 witness: a concrete full run selecting PDB2PKA fails with
NotImplementedError before hydrogens are added. -/
theorem claim_C9_witness :
    (non_trivial 1 fullPdb2pkaArgs cleanProt none emptyEnv).2 =
      Except.error (PdbExn.notImplementedError pdb2pkaTag) ∧
    Event.add_hydrogens ∉
      (non_trivial 1 fullPdb2pkaArgs cleanProt none emptyEnv).1 :=
  (claim_C9 1 fullPdb2pkaArgs cleanProt none emptyEnv rfl rfl).2
    false [Report.biomolecule_clean] rfl

/-! ### Claim C10: option checking and the pH range -/

/-- C10 counterexample: `check_options` also raises a RuntimeError for the
`--neutraln` flag without the PARSE force field, even though the pH (7) is
well inside [0, 14] - so the pH condition alone does not characterize when
option checking raises. -/
theorem claim_C10_cex :
    check_options neutralnArgs =
      Except.error (PdbExn.runtimeError neutralnTag) ∧
    ¬(neutralnArgs.ph < 0 ∨ neutralnArgs.ph > 14) := by
  constructor
  · unfold check_options
    rw [if_neg (by norm_num [neutralnArgs] :
      ¬(neutralnArgs.ph < 0 ∨ neutralnArgs.ph > 14))]
    rfl
  · norm_num [neutralnArgs]

/-- C10 (amended): with the `--neutraln`/`--neutralc` options unset, option
checking raises a RuntimeError exactly when the supplied pH is below 0 or
above 14; in particular pH 0 and pH 14 are accepted without error, despite
the error message citing the range [1, 14]. -/
theorem claim_C10 (args : Args) (hn : args.neutraln = false)
    (hc : args.neutralc = false) :
    ((∃ e, check_options args = Except.error e) ↔
      (args.ph < 0 ∨ args.ph > 14)) ∧
    (args.ph < 0 ∨ args.ph > 14 →
      check_options args = Except.error (PdbExn.runtimeError phTag)) ∧
    (¬(args.ph < 0 ∨ args.ph > 14) → check_options args = Except.ok ()) := by
  unfold check_options
  rw [hn, hc]
  by_cases hph : args.ph < 0 ∨ args.ph > 14
  · rw [if_pos hph]
    simp [hph]
  · rw [if_neg hph]
    simp [hph]

/-- C10 witness: pH 0 and pH 14 are both accepted by option checking. -/
theorem claim_C10_witness :
    check_options phZeroArgs = Except.ok () ∧
    check_options phFourteenArgs = Except.ok () :=
  ⟨(claim_C10 phZeroArgs rfl rfl).2.2 (by norm_num [phZeroArgs]),
    (claim_C10 phFourteenArgs rfl rfl).2.2 (by norm_num [phFourteenArgs])⟩
